import Mathlib

/-!
Verification of the web-service template's user CRUD service and error mapper
(`templates/web-service/src/services/user.rs`, `templates/web-service/src/error.rs`,
`templates/web-service/src/models/user.rs`).

The Postgres-backed service is shallowly embedded as pure functions over an
in-memory store (`List User`):
  - `SELECT ... WHERE col = $1 ... fetch_optional` becomes `List.find?`;
  - `INSERT ... RETURNING *` appends the new row;
  - `UPDATE ... SET c = COALESCE($n, c) ... WHERE id = $1` maps over the rows
    with matching id, each optional input field overwriting via `Option.getD`;
  - `DELETE ... WHERE id = $1` filters out matching rows, and `rows_affected`
    is the drop in length;
  - `NOW()` is an explicit `now : Nat` parameter and `Uuid::new_v4()` an
    explicit `newId : Nat` parameter (uuids and timestamps are abstracted to
    naturals);
  - every state-changing operation returns the resulting store alongside an
    `Except AppError` result, returning the input store unchanged on failure
    exactly where the Rust function returns early before running its SQL.
-/

namespace WebService

/-- User row, mirroring `models/user.rs`: id, email, name, created_at, updated_at. -/
structure User where
  id : Nat
  email : String
  name : String
  created_at : Nat
  updated_at : Nat
deriving Repr, DecidableEq

/-- Mirror of `CreateUserInput`: required email and name. -/
structure CreateUserInput where
  email : String
  name : String
deriving Repr, DecidableEq

/-- Mirror of `UpdateUserInput`: optional email and name (partial update). -/
structure UpdateUserInput where
  email : Option String
  name : Option String
deriving Repr, DecidableEq

/-- Mirror of `AppError` in `error.rs`. The `Internal` and `Database` payloads
hold the wrapped underlying cause, abstracted to its display text. -/
inductive AppError where
  | NotFound : String → AppError
  | Validation : String → AppError
  | Unauthorized : AppError
  | Forbidden : AppError
  | Conflict : String → AppError
  | Internal : String → AppError
  | Database : String → AppError
deriving Repr, DecidableEq

/-- The users table. -/
abbrev Store := List User

/-- Mirror of `find_by_id`: `SELECT * FROM users WHERE id = $1` + `or_not_found("user")`. -/
def find_by_id (s : Store) (id : Nat) : Except AppError User :=
  match s.find? (fun u => u.id == id) with
  | some u => .ok u
  | none => .error (.NotFound "user")

/-- Mirror of `find_by_email`: fetch_optional, absent is `Ok(None)`, not an error. -/
def find_by_email (s : Store) (email : String) : Except AppError (Option User) :=
  .ok (s.find? (fun u => u.email == email))

/-- Mirror of `create`: conflict check via `find_by_email`, then INSERT with a
fresh id and `created_at = updated_at = NOW()`. On the conflict early-return the
store is unchanged. -/
def create (s : Store) (newId now : Nat) (input : CreateUserInput) :
    Except AppError User × Store :=
  match find_by_email s input.email with
  | .error e => (.error e, s)
  | .ok (some _) => (.error (.Conflict "email already exists"), s)
  | .ok none =>
    let user : User :=
      { id := newId, email := input.email, name := input.name
        created_at := now, updated_at := now }
    (.ok user, s ++ [user])

/-- COALESCE semantics of the UPDATE statement: each present input field
overwrites the stored value, each absent field is kept, `updated_at = NOW()`. -/
def applyUpdate (u : User) (input : UpdateUserInput) (now : Nat) : User :=
  { u with
    email := input.email.getD u.email
    name := input.name.getD u.name
    updated_at := now }

/-- Email-uniqueness check of `update` (the nested if-lets in the source): a
conflict exists when the input carries an email and `find_by_email` returns a
user with a different id. -/
def emailConflict (s : Store) (id : Nat) (input : UpdateUserInput) : Bool :=
  match input.email with
  | some email =>
    match s.find? (fun v => v.email == email) with
    | some existing => existing.id != id
    | none => false
  | none => false

/-- Mirror of `update`: existence check via `find_by_id`, email-uniqueness check
(a match on the same id is not a conflict), then the COALESCE UPDATE on every
row with the given id. On either early return the store is unchanged. -/
def update (s : Store) (id now : Nat) (input : UpdateUserInput) :
    Except AppError User × Store :=
  match find_by_id s id with
  | .error e => (.error e, s)
  | .ok u =>
    if emailConflict s id input then
      (.error (.Conflict "email already exists"), s)
    else
      (.ok (applyUpdate u input now),
       s.map (fun v => if v.id == id then applyUpdate v input now else v))

/-- Mirror of `delete`: the DELETE statement runs first (filtering the store),
then `rows_affected == 0` (no length change) is reported as `NotFound`. -/
def delete (s : Store) (id : Nat) : Except AppError Unit × Store :=
  let remaining := s.filter (fun u => u.id != id)
  if s.length == remaining.length then
    (.error (.NotFound "user"), remaining)
  else
    (.ok (), remaining)

/-- Minimal JSON values, enough for the error response body built by `json!`. -/
inductive Json where
  | str : String → Json
  | num : Nat → Json
  | obj : List (String × Json) → Json

/-- Mirror of `IntoResponse for AppError`: the (status, message) match followed
by the `json!({"error": {"message": message, "code": status.as_u16()}})` body. -/
def into_response (e : AppError) : Nat × Json :=
  let pair : Nat × String :=
    match e with
    | .NotFound msg => (404, msg)
    | .Validation msg => (400, msg)
    | .Unauthorized => (401, "unauthorized")
    | .Forbidden => (403, "forbidden")
    | .Conflict msg => (409, msg)
    | .Internal _ => (500, "internal error")
    | .Database _ => (500, "internal error")
  (pair.1,
   Json.obj [("error", Json.obj [("message", Json.str pair.2), ("code", Json.num pair.1)])])

/-- Modelled from the spec: the status table of section 4.2 — NotFound 404,
Validation 400, Unauthorized 401, Forbidden 403, Conflict 409, Internal 500,
Database 500. Used only to compare `into_response` against the spec's table. -/
def specStatusOf : AppError → Nat
  | .NotFound _ => 404
  | .Validation _ => 400
  | .Unauthorized => 401
  | .Forbidden => 403
  | .Conflict _ => 409
  | .Internal _ => 500
  | .Database _ => 500

/-- The spec's required body shape: an object `{"error": {"message": m, "code": c}}`. -/
def errorShape (m : String) (c : Nat) : Json :=
  Json.obj [("error", Json.obj [("message", Json.str m), ("code", Json.num c)])]

/-- Two members of a store with pairwise-distinct emails that share an email
are the same user. -/
theorem email_unique_eq {s : Store}
    (h : s.Pairwise (fun a b => a.email ≠ b.email)) :
    ∀ a ∈ s, ∀ b ∈ s, a.email = b.email → a = b := by
  induction s with
  | nil => intro a ha; cases ha
  | cons x xs ih =>
    rcases List.pairwise_cons.mp h with ⟨hx, hxs⟩
    intro a ha b hb hab
    rcases List.mem_cons.mp ha with ha1 | ha2
    · rcases List.mem_cons.mp hb with hb1 | hb2
      · rw [ha1, hb1]
      · rw [ha1] at hab
        exact absurd hab (hx b hb2)
    · rcases List.mem_cons.mp hb with hb1 | hb2
      · rw [hb1] at hab
        exact absurd hab.symm (hx a ha2)
      · exact ih hxs a ha2 b hb2 hab

/-- From a store containing no row with the given id, the DELETE filter removes
nothing. -/
theorem filter_ne_id_of_absent {s : Store} {i : Nat}
    (h : s.find? (fun u => u.id == i) = none) :
    s.filter (fun u => u.id != i) = s := by
  rw [List.filter_eq_self]
  intro a ha
  have := List.find?_eq_none.mp h a ha
  simpa using this

/-- The store delete leaves behind is the filtered store, whichever branch the
rows_affected check takes. -/
theorem delete_snd (s : Store) (i : Nat) :
    (delete s i).2 = s.filter (fun u => u.id != i) := by
  unfold delete
  dsimp only
  split <;> rfl

/-- Deleting an absent id fails with NotFound and leaves the store unchanged. -/
theorem delete_absent {s : Store} {i : Nat}
    (h : s.find? (fun u => u.id == i) = none) :
    delete s i = (.error (.NotFound "user"), s) := by
  unfold delete
  rw [filter_ne_id_of_absent h]
  simp

/-- C1: when some stored user already holds the input's email, create fails
with Conflict "email already exists" and returns the store unchanged (no
insert happens). -/
theorem create_conflict_on_existing_email (s : Store) (input : CreateUserInput)
    (w : User) (hw : w ∈ s) (hemail : w.email = input.email) (newId now : Nat) :
    create s newId now input = (.error (.Conflict "email already exists"), s) := by
  have hsome : ∃ v, s.find? (fun u => u.email == input.email) = some v := by
    rw [← Option.isSome_iff_exists, List.find?_isSome]
    exact ⟨w, hw, by simp [hemail]⟩
  obtain ⟨v, hv⟩ := hsome
  simp [create, find_by_email, hv]

/-- Witness for C1 at a one-user store. -/
theorem create_conflict_on_existing_email_witness :
    create [⟨1, "a@x.com", "A", 0, 0⟩] 2 5 ⟨"a@x.com", "B"⟩ =
      (.error (.Conflict "email already exists"), [⟨1, "a@x.com", "A", 0, 0⟩]) :=
  create_conflict_on_existing_email [⟨1, "a@x.com", "A", 0, 0⟩] ⟨"a@x.com", "B"⟩
    ⟨1, "a@x.com", "A", 0, 0⟩ (by simp) rfl 2 5

/-- C2: for an id absent from the store, find_by_id, update and delete each
fail with NotFound "user" and leave the store unchanged; and a second delete of
the same id, after any first delete, fails with NotFound rather than crashing. -/
theorem absent_id_not_found (s : Store) (i : Nat)
    (h : s.find? (fun u => u.id == i) = none) :
    find_by_id s i = .error (.NotFound "user")
    ∧ (∀ now input, update s i now input = (.error (.NotFound "user"), s))
    ∧ delete s i = (.error (.NotFound "user"), s)
    ∧ (∀ s₀ : Store, (delete (delete s₀ i).2 i).1 = .error (.NotFound "user")) := by
  have hfid : find_by_id s i = .error (.NotFound "user") := by
    simp [find_by_id, h]
  refine ⟨hfid, fun now input => by simp [update, hfid], delete_absent h, ?_⟩
  intro s₀
  have habsent : ((delete s₀ i).2).find? (fun u => u.id == i) = none := by
    rw [delete_snd, List.find?_eq_none]
    intro x hx
    have := (List.mem_filter.mp hx).2
    simpa using this
  rw [delete_absent habsent]

/-- Witness for C2: id 7 absent from a one-user store. -/
theorem absent_id_not_found_witness :
    find_by_id [⟨1, "a@x.com", "A", 0, 0⟩] 7 = .error (.NotFound "user")
    ∧ (∀ now input,
        update [⟨1, "a@x.com", "A", 0, 0⟩] 7 now input =
          (.error (.NotFound "user"), [⟨1, "a@x.com", "A", 0, 0⟩]))
    ∧ delete [⟨1, "a@x.com", "A", 0, 0⟩] 7 =
        (.error (.NotFound "user"), [⟨1, "a@x.com", "A", 0, 0⟩])
    ∧ (∀ s₀ : Store, (delete (delete s₀ 7).2 7).1 = .error (.NotFound "user")) :=
  absent_id_not_found [⟨1, "a@x.com", "A", 0, 0⟩] 7 (by simp)

/-- C3: with a fresh email (and the generated id fresh, as Uuid::new_v4
provides), create succeeds and find_by_id on the returned user's id in the
resulting store returns that same user. -/
theorem create_find_by_id_round_trip (s : Store) (input : CreateUserInput)
    (newId now : Nat)
    (hemail : ∀ v ∈ s, v.email ≠ input.email)
    (hid : ∀ v ∈ s, v.id ≠ newId) :
    ∃ u : User, create s newId now input = (.ok u, s ++ [u])
      ∧ find_by_id (s ++ [u]) u.id = .ok u := by
  have hnone : s.find? (fun u => u.email == input.email) = none := by
    rw [List.find?_eq_none]
    intro x hx
    simpa using hemail x hx
  refine ⟨⟨newId, input.email, input.name, now, now⟩, ?_, ?_⟩
  · simp [create, find_by_email, hnone]
  · have hnone' : s.find? (fun u => u.id == newId) = none := by
      rw [List.find?_eq_none]
      intro x hx
      simpa using hid x hx
    simp [find_by_id, List.find?_append, hnone']

/-- Witness for C3: fresh email and id over a one-user store. -/
theorem create_find_by_id_round_trip_witness :
    ∃ u : WebService.User,
      create [⟨1, "a@x.com", "A", 0, 0⟩] 2 5 ⟨"b@x.com", "B"⟩ =
        (.ok u, [⟨1, "a@x.com", "A", 0, 0⟩] ++ [u])
      ∧ find_by_id ([⟨1, "a@x.com", "A", 0, 0⟩] ++ [u]) u.id = .ok u :=
  create_find_by_id_round_trip [⟨1, "a@x.com", "A", 0, 0⟩] ⟨"b@x.com", "B"⟩ 2 5
    (by intro v hv; simp at hv; subst hv; simp)
    (by intro v hv; simp at hv; subst hv; simp)

/-- C4: a name-only update on an existing user succeeds, keeps id, email and
created_at, sets name to the supplied value and updated_at to now — strictly
later than before when time has advanced; and in general every successful
update overwrites exactly the present input fields, keeps the absent ones, and
stamps updated_at with now. -/
theorem update_name_only_frame (s : Store) (i now : Nat) (u : User) (n : String)
    (hfind : s.find? (fun v => v.id == i) = some u)
    (htime : u.updated_at < now) :
    update s i now ⟨none, some n⟩ =
      (.ok ⟨u.id, u.email, n, u.created_at, now⟩,
       s.map (fun v => if v.id == i then applyUpdate v ⟨none, some n⟩ now else v))
    ∧ (∀ u₂ s₂, update s i now ⟨none, some n⟩ = (.ok u₂, s₂) →
        u.updated_at < u₂.updated_at)
    ∧ (∀ input u₂ s₂, update s i now input = (.ok u₂, s₂) →
        u₂.id = u.id ∧ u₂.email = input.email.getD u.email
        ∧ u₂.name = input.name.getD u.name
        ∧ u₂.created_at = u.created_at ∧ u₂.updated_at = now) := by
  have heq : update s i now ⟨none, some n⟩ =
      (.ok ⟨u.id, u.email, n, u.created_at, now⟩,
       s.map (fun v => if v.id == i then applyUpdate v ⟨none, some n⟩ now else v)) := by
    simp [update, find_by_id, hfind, emailConflict, applyUpdate]
  refine ⟨heq, ?_, ?_⟩
  · intro u₂ s₂ h
    rw [heq] at h
    obtain ⟨h1, _⟩ := Prod.mk.injEq .. ▸ h
    cases Except.ok.inj (Prod.ext_iff.mp h).1
    exact htime
  · intro input u₂ s₂ h
    unfold update at h
    rw [find_by_id, hfind] at h
    dsimp only at h
    split at h
    · exact absurd (Prod.ext_iff.mp h).1 (by simp)
    · have := (Prod.ext_iff.mp h).1
      cases Except.ok.inj this
      simp [applyUpdate]

/-- Witness for C4: name-only update of the single stored user. -/
theorem update_name_only_frame_witness :
    (update [⟨1, "a@x.com", "A", 0, 0⟩] 1 5 ⟨none, some "B"⟩ =
      (.ok ⟨1, "a@x.com", "B", 0, 5⟩,
       [⟨1, "a@x.com", "A", 0, 0⟩].map
         (fun v => if v.id == 1 then applyUpdate v ⟨none, some "B"⟩ 5 else v))
    ∧ (∀ u₂ s₂,
        update [⟨1, "a@x.com", "A", 0, 0⟩] 1 5 ⟨none, some "B"⟩ = (.ok u₂, s₂) →
          (0 : Nat) < u₂.updated_at)
    ∧ (∀ input u₂ s₂,
        update [⟨1, "a@x.com", "A", 0, 0⟩] 1 5 input = (.ok u₂, s₂) →
          u₂.id = 1 ∧ u₂.email = input.email.getD "a@x.com"
          ∧ u₂.name = input.name.getD "A"
          ∧ u₂.created_at = 0 ∧ u₂.updated_at = 5)) :=
  update_name_only_frame [⟨1, "a@x.com", "A", 0, 0⟩] 1 5 ⟨1, "a@x.com", "A", 0, 0⟩
    "B" (by simp) (by decide)

/-- From a true conflict flag, a different stored user holds the supplied
email. -/
theorem emailConflict_spec {s : Store} {i : Nat} {input : UpdateUserInput}
    (hc : emailConflict s i input = true) :
    ∃ v, v ∈ s ∧ v.id ≠ i ∧ input.email = some v.email := by
  obtain ⟨emailOpt, nameOpt⟩ := input
  rcases emailOpt with _ | email
  · simp [emailConflict] at hc
  · rcases hex : s.find? (fun v => v.email == email) with _ | existing
    · simp [emailConflict, hex] at hc
    · simp only [emailConflict] at hc
      rw [hex] at hc
      simp only [bne_iff_ne, ne_eq] at hc
      have hv1 : existing ∈ s := List.mem_of_find?_eq_some hex
      have hv2 : existing.email = email := by simpa using List.find?_some hex
      exact ⟨existing, hv1, hc, by rw [hv2]⟩

/-- C5: updating an existing user while supplying that user's own current email
is not a conflict (given the email-uniqueness invariant), and update returns a
Conflict only when a different stored user holds the supplied email. -/
theorem update_same_email_no_conflict (s : Store) (i now : Nat) (u : User)
    (hfind : s.find? (fun v => v.id == i) = some u)
    (huniq : s.Pairwise (fun a b => a.email ≠ b.email)) :
    (∀ nameOpt, ∃ u' s', update s i now ⟨some u.email, nameOpt⟩ = (.ok u', s'))
    ∧ (∀ input m s', update s i now input = (.error (.Conflict m), s') →
        ∃ v, v ∈ s ∧ v.id ≠ i ∧ input.email = some v.email) := by
  have humem : u ∈ s := List.mem_of_find?_eq_some hfind
  have huid : u.id = i := by simpa using List.find?_some hfind
  constructor
  · intro nameOpt
    have hsome : ∃ w, s.find? (fun v => v.email == u.email) = some w := by
      rw [← Option.isSome_iff_exists, List.find?_isSome]
      exact ⟨u, humem, by simp⟩
    obtain ⟨w, hw⟩ := hsome
    have hwmem : w ∈ s := List.mem_of_find?_eq_some hw
    have hwemail : w.email = u.email := by simpa using List.find?_some hw
    have hwu : w = u := email_unique_eq huniq w hwmem u humem hwemail
    have hcfalse : emailConflict s i ⟨some u.email, nameOpt⟩ = false := by
      simp only [emailConflict]
      rw [hw]
      simp [hwu, huid]
    exact ⟨applyUpdate u ⟨some u.email, nameOpt⟩ now,
      s.map (fun v => if v.id == i then applyUpdate v ⟨some u.email, nameOpt⟩ now else v),
      by simp [update, find_by_id, hfind, hcfalse]⟩
  · intro input m s' h
    unfold update at h
    rw [find_by_id, hfind] at h
    dsimp only at h
    split at h
    case isTrue hc => exact emailConflict_spec hc
    case isFalse hc => exact absurd (Prod.ext_iff.mp h).1 (by simp)

/-- Witness for C5: a two-user store with distinct emails; user 1 updates to
its own email. -/
theorem update_same_email_no_conflict_witness :
    ((∀ nameOpt, ∃ u' s',
        update [⟨1, "a@x.com", "A", 0, 0⟩, ⟨2, "b@x.com", "B", 0, 0⟩] 1 5
            ⟨some "a@x.com", nameOpt⟩ = (.ok u', s'))
    ∧ (∀ input m s',
        update [⟨1, "a@x.com", "A", 0, 0⟩, ⟨2, "b@x.com", "B", 0, 0⟩] 1 5 input =
            (.error (.Conflict m), s') →
          ∃ v, v ∈ ([⟨1, "a@x.com", "A", 0, 0⟩, ⟨2, "b@x.com", "B", 0, 0⟩] : Store)
            ∧ v.id ≠ 1 ∧ input.email = some v.email)) :=
  update_same_email_no_conflict
    [⟨1, "a@x.com", "A", 0, 0⟩, ⟨2, "b@x.com", "B", 0, 0⟩] 1 5
    ⟨1, "a@x.com", "A", 0, 0⟩ (by simp) (by simp)

/-- C10: an update whose input has every field absent succeeds on an existing
user, leaves id, email, name and created_at unchanged, and still refreshes
updated_at to now. -/
theorem update_empty_input_refreshes_timestamp (s : Store) (i now : Nat) (u : User)
    (hfind : s.find? (fun v => v.id == i) = some u) :
    update s i now ⟨none, none⟩ =
      (.ok ⟨u.id, u.email, u.name, u.created_at, now⟩,
       s.map (fun v =>
         if v.id == i then ⟨v.id, v.email, v.name, v.created_at, now⟩ else v)) := by
  have hfun : (fun v : User => if v.id == i then applyUpdate v ⟨none, none⟩ now else v) =
      (fun v : User =>
        if v.id == i then ⟨v.id, v.email, v.name, v.created_at, now⟩ else v) := by
    funext v
    simp [applyUpdate]
  have : update s i now ⟨none, none⟩ =
      (.ok (applyUpdate u ⟨none, none⟩ now),
       s.map (fun v => if v.id == i then applyUpdate v ⟨none, none⟩ now else v)) := by
    simp [update, find_by_id, hfind, emailConflict]
  rw [this, hfun]
  simp [applyUpdate]

/-- Witness for C10 at a one-user store. -/
theorem update_empty_input_refreshes_timestamp_witness :
    update [⟨1, "a@x.com", "A", 0, 0⟩] 1 5 ⟨none, none⟩ =
      (.ok ⟨1, "a@x.com", "A", 0, 5⟩,
       [⟨1, "a@x.com", "A", 0, 0⟩].map
         (fun v => if v.id == 1 then ⟨v.id, v.email, v.name, v.created_at, 5⟩ else v)) :=
  update_empty_input_refreshes_timestamp [⟨1, "a@x.com", "A", 0, 0⟩] 1 5
    ⟨1, "a@x.com", "A", 0, 0⟩ (by simp)

/-- Timestamp invariant of section 3: every stored user has
updated_at >= created_at. -/
def Inv (s : Store) : Prop := ∀ u ∈ s, u.created_at ≤ u.updated_at

/-- C8: the timestamp invariant (updated_at >= created_at for every stored
user) is preserved by create, update (when the clock has not gone backwards
past any stored creation time) and delete, on success and on failure alike. -/
theorem timestamps_invariant_preserved (s : Store) (hInv : Inv s) :
    (∀ newId now input, Inv (create s newId now input).2)
    ∧ (∀ i now input, (∀ v ∈ s, v.created_at ≤ now) → Inv (update s i now input).2)
    ∧ (∀ i, Inv (delete s i).2) := by
  refine ⟨?_, ?_, ?_⟩
  · intro newId now input
    rcases hfe : s.find? (fun u => u.email == input.email) with _ | w
    · have heq : create s newId now input =
          (.ok ⟨newId, input.email, input.name, now, now⟩,
           s ++ [⟨newId, input.email, input.name, now, now⟩]) := by
        simp [create, find_by_email, hfe]
      rw [heq]
      intro u hu
      rcases List.mem_append.mp hu with h1 | h2
      · exact hInv u h1
      · rw [List.mem_singleton.mp h2]
    · have heq : create s newId now input =
          (.error (.Conflict "email already exists"), s) := by
        simp [create, find_by_email, hfe]
      rw [heq]
      exact hInv
  · intro i now input hnow
    rcases hfi : find_by_id s i with e | u
    · have heq : update s i now input = (.error e, s) := by
        simp [update, hfi]
      rw [heq]
      exact hInv
    · rcases hc : emailConflict s i input with _ | _
      · have heq : update s i now input =
            (.ok (applyUpdate u input now),
             s.map (fun v => if v.id == i then applyUpdate v input now else v)) := by
          simp [update, hfi, hc]
        rw [heq]
        intro w hw
        rcases List.mem_map.mp hw with ⟨v, hv, rfl⟩
        by_cases hvi : (v.id == i) = true
        · simpa [hvi, applyUpdate] using hnow v hv
        · simpa [hvi] using hInv v hv
      · have heq : update s i now input = (.error (.Conflict "email already exists"), s) := by
          simp [update, hfi, hc]
        rw [heq]
        exact hInv
  · intro i
    rw [delete_snd]
    intro u hu
    exact hInv u (List.mem_filter.mp hu).1

/-- Witness for C8 at a one-user store with now past every creation time. -/
theorem timestamps_invariant_preserved_witness :
    ((∀ newId now input, Inv (create [⟨1, "a@x.com", "A", 0, 0⟩] newId now input).2)
    ∧ (∀ i now input,
        (∀ v ∈ ([⟨1, "a@x.com", "A", 0, 0⟩] : Store), v.created_at ≤ now) →
        Inv (update [⟨1, "a@x.com", "A", 0, 0⟩] i now input).2)
    ∧ (∀ i, Inv (delete [⟨1, "a@x.com", "A", 0, 0⟩] i).2)) :=
  timestamps_invariant_preserved [⟨1, "a@x.com", "A", 0, 0⟩]
    (by intro u hu; simp at hu; subst hu; exact Nat.le_refl 0)

/-- C6: for every AppError, the mapped response is a JSON object of shape
`{"error": {"message": string, "code": number}}` whose code equals the HTTP
status, and the status follows the kind table (NotFound 404, Validation 400,
Unauthorized 401, Forbidden 403, Conflict 409, Internal 500, Database 500). -/
theorem into_response_shape_and_status (e : AppError) :
    ∃ m : String, into_response e = (specStatusOf e, errorShape m (specStatusOf e)) := by
  cases e <;> exact ⟨_, rfl⟩

/-- C7: noninterference of error causes — any two causes wrapped as `Internal`
render identically, any two wrapped as `Database` render identically, and in
both cases the response is the fixed (500, "internal error") body, so the
cause's text never reaches the response. -/
theorem internal_database_noninterference :
    (∀ c₁ c₂ : String, into_response (.Internal c₁) = into_response (.Internal c₂))
    ∧ (∀ c₁ c₂ : String, into_response (.Database c₁) = into_response (.Database c₂))
    ∧ (∀ c : String, into_response (.Internal c) = (500, errorShape "internal error" 500))
    ∧ (∀ c : String, into_response (.Database c) = (500, errorShape "internal error" 500)) :=
  ⟨fun _ _ => rfl, fun _ _ => rfl, fun _ => rfl, fun _ => rfl⟩

/-- C9: a `Database` error renders byte-identically to an `Internal` error —
same 500 status and the same exact message "internal error" — so the caller
cannot tell the two kinds apart from the response. -/
theorem database_renders_as_internal :
    ∀ c c' : String,
      into_response (.Database c) = into_response (.Internal c')
      ∧ into_response (.Database c) = (500, errorShape "internal error" 500) :=
  fun _ _ => ⟨rfl, rfl⟩

end WebService
